import Mathlib

/-!
Verification of the Adept AI project-management frontend.

This file gives a shallow embedding of the data model and the operations of
the repository (a React frontend over a REST backend): the role-permission
table, the dashboard task statistics, the project progress computation, the
AI-suggestion save pipeline, the task-creation validation schema, the
invitation-acceptance flow, and the team-membership operations.  Pure
functions of the source are translated into Lean functions; the few backend
endpoints whose code is not part of the repository snapshot are modelled
from the specification and are marked as such in their doc comments.
-/

/-- Task priority enumeration (lib/types.ts, TaskPriority). -/
inductive TaskPriority
  | low
  | medium
  | high
  deriving DecidableEq, Repr

/-- Provenance of a task (lib/types.ts, CreatedBy). -/
inductive CreatedBy
  | ai
  | user
  deriving DecidableEq, Repr

/-- Project role enumeration (lib/types.ts, ProjectRole). -/
inductive ProjectRole
  | Viewer
  | Editor
  | Owner
  deriving DecidableEq, Repr

/-- The total order Viewer < Editor < Owner on roles, as a numeric rank. -/
def roleRank : ProjectRole → Nat
  | ProjectRole.Viewer => 0
  | ProjectRole.Editor => 1
  | ProjectRole.Owner => 2

/-- One row of the role-permission table (PermissionsTable.tsx). -/
structure PermRow where
  name : String
  owner : Bool
  editor : Bool
  viewer : Bool
  deriving DecidableEq, Repr

/-- The role-permission table of PermissionsTable.tsx, row for row. -/
def permissions : List PermRow :=
  [⟨"View Tasks", true, true, true⟩,
   ⟨"Create Tasks", true, true, false⟩,
   ⟨"Edit Tasks", true, true, false⟩,
   ⟨"Delete Tasks", true, true, false⟩,
   ⟨"Manage Team", true, false, false⟩,
   ⟨"Project Settings", true, false, false⟩]

/-- Whether the table grants a permission row to a role (column lookup). -/
def grants : ProjectRole → PermRow → Bool
  | ProjectRole.Owner, p => p.owner
  | ProjectRole.Editor, p => p.editor
  | ProjectRole.Viewer, p => p.viewer

/-- The per-role capability lists shown on InvitationPage.tsx
(the permissions object of the accept screen). -/
def invPermissions : ProjectRole → List String
  | ProjectRole.Owner =>
      ["View all tasks", "Create new tasks", "Edit and delete tasks",
       "Manage team members", "Project settings"]
  | ProjectRole.Editor =>
      ["View all tasks", "Create new tasks", "Edit and delete tasks"]
  | ProjectRole.Viewer => ["View all tasks"]

/-- A task record as the dashboard and project pages consume it: only the
fields the analytics use.  The status is kept as the wire string so that the
fall-through branch of the statistics fold is observable. -/
structure TaskRec where
  status : String
  effort_estimate : Option Int
  deriving DecidableEq, Repr

/-- The accumulator of fetchTaskStats (Dashboard.tsx). -/
structure TaskStats where
  completed : Nat
  in_progress : Nat
  todo : Nat
  deriving DecidableEq, Repr

/-- One step of the fetchTaskStats reduce (Dashboard.tsx): a task with
status done counts as completed, else status in_progress counts as
in_progress, anything else counts as todo. -/
def statsStep (acc : TaskStats) (t : TaskRec) : TaskStats :=
  if t.status = "done" then { acc with completed := acc.completed + 1 }
  else if t.status = "in_progress" then { acc with in_progress := acc.in_progress + 1 }
  else { acc with todo := acc.todo + 1 }

/-- fetchTaskStats (Dashboard.tsx): fold the step over all tasks starting
from the zero accumulator. -/
def taskStats (ts : List TaskRec) : TaskStats :=
  ts.foldl statsStep ⟨0, 0, 0⟩

/-- The effort contribution of one task: effort_estimate or 0 when null
(the JS expression t.effort_estimate or-else 0). -/
def effortOf (t : TaskRec) : Int :=
  t.effort_estimate.getD 0

/-- totalEffort (ProjectDetail.tsx): reduce summing effortOf over all tasks. -/
def totalEffort (ts : List TaskRec) : Int :=
  ts.foldl (fun sum t => sum + effortOf t) 0

/-- doneTasks (ProjectDetail.tsx): the tasks whose status is done. -/
def doneTasks (ts : List TaskRec) : List TaskRec :=
  ts.filter fun t => decide (t.status = "done")

/-- completedEffort (ProjectDetail.tsx): reduce summing effortOf over the
done tasks. -/
def completedEffort (ts : List TaskRec) : Int :=
  (doneTasks ts).foldl (fun sum t => sum + effortOf t) 0

/-- progressPercent (ProjectDetail.tsx): when the total effort is positive,
the rounded percentage of completed effort, otherwise 0 (the guard of the
ternary expression). -/
def progressPercent (ts : List TaskRec) : Int :=
  if 0 < totalEffort ts then
    round ((completedEffort ts : ℚ) / (totalEffort ts : ℚ) * 100)
  else 0

/-- The JS string trim: drop whitespace characters from both ends, written
structurally over the character list so that it evaluates. -/
def trimChars (l : List Char) : List Char :=
  ((l.dropWhile Char.isWhitespace).reverse.dropWhile Char.isWhitespace).reverse

/-- The JS string trim on strings. -/
def strTrim (s : String) : String :=
  ⟨trimChars s.data⟩

/-- A suggestion as AIGeneratePage.tsx holds it in state (the AISuggestion
interface restricted to the fields the save pipeline reads). -/
structure AISuggestion where
  suggestion_id : String
  title : String
  description : String
  priority : TaskPriority
  effort_estimate : Int
  source : String
  modified : Bool
  deriving DecidableEq, Repr

/-- The body of one task in the bulk-create request that handleSave
(AIGeneratePage.tsx) posts. -/
structure TaskCreatePayload where
  title : String
  description : Option String
  priority : TaskPriority
  effort_estimate : Int
  ai_generated : Bool
  ai_priority_suggestion : Option TaskPriority
  ai_effort_suggestion : Option Int
  created_by : CreatedBy
  deriving DecidableEq, Repr

/-- The filter of handleSave: a suggestion is kept when its trimmed title is
nonempty. -/
def keptSuggestion (s : AISuggestion) : Bool :=
  decide (strTrim s.title ≠ "")

/-- The map of handleSave (AIGeneratePage.tsx): the payload built from one
suggestion.  Note that every field is read from the suggestion state at save
time; in particular ai_priority_suggestion and ai_effort_suggestion are the
current priority and effort_estimate whenever the source is gemini. -/
def savePayload (s : AISuggestion) : TaskCreatePayload :=
  { title := strTrim s.title,
    description := if strTrim s.description = "" then none else some (strTrim s.description),
    priority := s.priority,
    effort_estimate := s.effort_estimate,
    ai_generated := decide (s.source = "gemini"),
    ai_priority_suggestion := if s.source = "gemini" then some s.priority else none,
    ai_effort_suggestion := if s.source = "gemini" then some s.effort_estimate else none,
    created_by := if s.source = "gemini" then CreatedBy.ai else CreatedBy.user }

/-- tasksToCreate of handleSave (AIGeneratePage.tsx): filter the titled
suggestions, then map each to its payload, in order. -/
def tasksToCreate (l : List AISuggestion) : List TaskCreatePayload :=
  (l.filter keptSuggestion).map savePayload

/-- The updates argument of handleUpdate (AIGeneratePage.tsx): each field
that the edit UI may change, absent when the edit does not touch it. -/
structure SuggestionUpdate where
  title : Option String := none
  description : Option String := none
  priority : Option TaskPriority := none
  effort_estimate : Option Int := none
  deriving Repr

/-- The object-spread update of handleUpdate: overwrite the given fields and
set the modified flag. -/
def applyUpdate (u : SuggestionUpdate) (s : AISuggestion) : AISuggestion :=
  { s with
    title := u.title.getD s.title,
    description := u.description.getD s.description,
    priority := u.priority.getD s.priority,
    effort_estimate := u.effort_estimate.getD s.effort_estimate,
    modified := true }

/-- handleUpdate (AIGeneratePage.tsx): apply the updates to the suggestion
with the given id, leaving the others unchanged. -/
def handleUpdate (l : List AISuggestion) (id : String) (u : SuggestionUpdate) :
    List AISuggestion :=
  l.map fun s => if s.suggestion_id = id then applyUpdate u s else s

/-- The input of the manual task-creation form (CreateTaskDialog): title,
optional description, optional parsed effort estimate. -/
structure TaskInput where
  title : String
  description : Option String
  effort_estimate : Option Int
  deriving DecidableEq, Repr

/-- taskSchema of CreateTaskDialog: the title must trim to 1 to 200
characters, the description (when given) must trim to at most 1000
characters, and the effort estimate (when given) must lie between 0 and
1000. -/
def taskSchemaAccepts (t : TaskInput) : Bool :=
  (decide (1 ≤ (strTrim t.title).length) && decide ((strTrim t.title).length ≤ 200))
    && (match t.description with
        | none => true
        | some d => decide ((strTrim d).length ≤ 1000))
    && (match t.effort_estimate with
        | none => true
        | some e => decide (0 ≤ e) && decide (e ≤ 1000))

/-- Acceptance condition written from the words of the claim, for comparison
with taskSchemaAccepts: trimmed title of 1 to 200 characters and, when an
effort estimate is present, a nonnegative effort estimate. -/
def claimedTaskAccepts (t : TaskInput) : Bool :=
  (decide (1 ≤ (strTrim t.title).length) && decide ((strTrim t.title).length ≤ 200))
    && (match t.effort_estimate with
        | none => true
        | some e => decide (0 ≤ e))

/-- The two outcomes of handleSubmit (CreateTaskDialog): stop on a failed
validation without posting, or post the create request. -/
inductive SubmitAction
  | rejectValidation
  | postCreate
  deriving DecidableEq, Repr

/-- handleSubmit (CreateTaskDialog): the POST is made exactly when the
schema validation succeeds; otherwise the handler returns before the
request, so no task is created. -/
def handleSubmitAction (t : TaskInput) : SubmitAction :=
  if taskSchemaAccepts t then SubmitAction.postCreate else SubmitAction.rejectValidation

/-- The logged-in user as the invitation page reads it (id and email). -/
structure AuthUser where
  id : String
  email : String
  deriving DecidableEq, Repr

/-- An invitation record (lib/types.ts ProjectInvitation together with the
accepted_at marker the page checks).  Times are integers so that the clock
comparison of the page is explicit. -/
structure InvitationRec where
  id : String
  project_id : String
  invited_email : String
  role : ProjectRole
  token : String
  accepted_at : Option Int
  expires_at : Int
  deriving DecidableEq, Repr

/-- The outcome of handleAccept (InvitationPage.tsx) before any request is
sent: redirect to login when no user is logged in, refuse on an email
mismatch, or post the accept request. -/
inductive AcceptUiAction
  | redirectToLogin
  | refuseEmailMismatch
  | postAccept (invitationId : String)
  deriving DecidableEq, Repr

/-- handleAccept (InvitationPage.tsx): without a logged-in user, redirect to
login; when the logged-in email differs from the invited email by exact
string comparison, refuse without any request; otherwise post the accept
request for the invitation. -/
def handleAccept (user : Option AuthUser) (inv : InvitationRec) : AcceptUiAction :=
  match user with
  | none => AcceptUiAction.redirectToLogin
  | some u =>
      if u.email = inv.invited_email then AcceptUiAction.postAccept inv.id
      else AcceptUiAction.refuseEmailMismatch

/-- The disabled condition of the Accept Invitation button
(InvitationPage.tsx): processing, or no user, or an email mismatch. -/
def acceptButtonDisabled (processing : Bool) (user : Option AuthUser)
    (inv : InvitationRec) : Bool :=
  processing
    || (match user with
        | none => true
        | some u => decide (u.email ≠ inv.invited_email))

/-- The error classes of fetchInvitation (InvitationPage.tsx), in the order
the page tests them: missing invitation, already accepted, expired. -/
inductive InvitationPageError
  | notFound
  | alreadyAccepted
  | expired
  deriving DecidableEq, Repr

/-- fetchInvitation (InvitationPage.tsx): no data is an error, an invitation
with accepted_at set is an error, an invitation whose expires_at lies before
the current time is an error; otherwise the page shows the invitation. -/
def fetchInvitationCheck (invitationData : Option InvitationRec) (now : Int) :
    Except InvitationPageError InvitationRec :=
  match invitationData with
  | none => Except.error InvitationPageError.notFound
  | some inv =>
      if inv.accepted_at.isSome then Except.error InvitationPageError.alreadyAccepted
      else if inv.expires_at < now then Except.error InvitationPageError.expired
      else Except.ok inv

/-- A membership row: the (project, user, role) relation. -/
structure MembershipRec where
  project_id : String
  user_id : String
  role : ProjectRole
  deriving DecidableEq, Repr

/-- The invitation and membership store the backend keeps. -/
structure TeamState where
  invitations : List InvitationRec
  memberships : List MembershipRec
  deriving DecidableEq, Repr

/-- The error kinds of acceptInvitation in the spec. -/
inductive AcceptError
  | NotFound
  | Gone
  | Expired
  | Forbidden
  deriving DecidableEq, Repr

/-- Modelled from the spec: the backend endpoint acceptInvitation(token,
acceptingUser) is not in src/ (only its frontend callers are).  Following
section 4.3 of the spec: NotFound when the token is unknown, Gone when the
invitation is already accepted, Expired when past the TTL, Forbidden when
the accepting user's email does not equal the invited email by exact string
comparison; on success the Membership with the invited role is created and
the invitation is marked accepted.  An error returns no new state, so the
store is unchanged and no Membership is created. -/
def acceptInvitation (st : TeamState) (token : String) (u : AuthUser) (now : Int) :
    Except AcceptError TeamState :=
  match st.invitations.find? (fun i => decide (i.token = token)) with
  | none => Except.error AcceptError.NotFound
  | some inv =>
      if inv.accepted_at.isSome then Except.error AcceptError.Gone
      else if inv.expires_at < now then Except.error AcceptError.Expired
      else if u.email ≠ inv.invited_email then Except.error AcceptError.Forbidden
      else Except.ok
        { invitations := st.invitations.map fun i =>
            if i.token = token then { i with accepted_at := some now } else i,
          memberships := ⟨inv.project_id, u.id, inv.role⟩ :: st.memberships }

/-- The error kind of a failed bulk creation in the spec. -/
inductive BulkError
  | ValidationError
  deriving DecidableEq, Repr

/-- Modelled from the spec: the backend endpoint bulkCreateTasks is not in
src/ (only its caller handleSave is).  Following section 4.2 of the spec:
each item is validated as in createTask, the whole batch is rejected
atomically when any item fails validation, and on success the tasks are
appended to the store in the order supplied. -/
def bulkCreateTasks (store : List TaskInput) (batch : List TaskInput) :
    Except BulkError (List TaskInput) :=
  if batch.all taskSchemaAccepts then Except.ok (store ++ batch)
  else Except.error BulkError.ValidationError

/-- Modelled from the spec: the backend member-removal endpoint is not in
src/ (only its caller handleRemoveMember of TeamPage.tsx is, and it issues
the DELETE unconditionally).  Section 9 of the spec records the observed
behavior: the removal is performed with no last-Owner check, so a project
can end up ownerless. -/
def removeMember (ms : List MembershipRec) (projectId userId : String) :
    List MembershipRec :=
  ms.filter fun m => !(decide (m.project_id = projectId) && decide (m.user_id = userId))

/-- The number of Owner memberships a project has. -/
def ownerCount (ms : List MembershipRec) (projectId : String) : Nat :=
  ms.countP fun m => decide (m.project_id = projectId) && decide (m.role = ProjectRole.Owner)

/-- canManage of TeamMemberCard.tsx: the current user is an Owner and the
card is not the current user's own. -/
def canManage (currentUserRole : ProjectRole) (isCurrentUser : Bool) : Bool :=
  decide (currentUserRole = ProjectRole.Owner) && !isCurrentUser

/-- The disabled condition of the Remove Member menu item of
TeamMemberCard.tsx: the item is disabled exactly when the target member is
an Owner (any Owner, last or not; no Conflict error is surfaced). -/
def removeMemberItemDisabled (memberRole : ProjectRole) : Bool :=
  decide (memberRole = ProjectRole.Owner)

/-- Claim C7: the role-permission mapping is monotone in the total order
Viewer < Editor < Owner: every permission row of the table that is granted
to Viewer is granted to Editor, and every one granted to Editor is granted
to Owner; concretely Viewer holds exactly the read permission, Editor adds
task create, edit and delete, and Owner adds team management and project
settings; the capability lists of the invitation page nest the same way. -/
theorem c7_role_permissions_monotone :
    (permissions.all fun p =>
        ((!grants ProjectRole.Viewer p) || grants ProjectRole.Editor p)
          && ((!grants ProjectRole.Editor p) || grants ProjectRole.Owner p)) = true
      ∧ (permissions.filter (grants ProjectRole.Viewer)).map PermRow.name
          = ["View Tasks"]
      ∧ (permissions.filter (grants ProjectRole.Editor)).map PermRow.name
          = ["View Tasks", "Create Tasks", "Edit Tasks", "Delete Tasks"]
      ∧ (permissions.filter (grants ProjectRole.Owner)).map PermRow.name
          = ["View Tasks", "Create Tasks", "Edit Tasks", "Delete Tasks",
             "Manage Team", "Project Settings"]
      ∧ ((invPermissions ProjectRole.Viewer).all
            (fun s => decide (s ∈ invPermissions ProjectRole.Editor))) = true
      ∧ ((invPermissions ProjectRole.Editor).all
            (fun s => decide (s ∈ invPermissions ProjectRole.Owner))) = true
      ∧ roleRank ProjectRole.Viewer < roleRank ProjectRole.Editor
      ∧ roleRank ProjectRole.Editor < roleRank ProjectRole.Owner := by
  decide

/-- The two-member project of the C1 failing input: u1 is the only Owner. -/
def c1Members : List MembershipRec :=
  [⟨"p1", "u1", ProjectRole.Owner⟩, ⟨"p1", "u2", ProjectRole.Editor⟩]

/-- Claim C1 (code bug): removing the last remaining Owner is not rejected.
On the failing input, project p1 holds exactly one Owner u1, yet the removal
of u1 goes through and leaves the project with zero Owners - no Conflict
arises anywhere in the code; the member card merely disables the Remove
Member item for every Owner target, which is not a Conflict rejection of the
last Owner. -/
theorem c1_last_owner_removal_not_rejected :
    ownerCount c1Members "p1" = 1
      ∧ removeMember c1Members "p1" "u1" = [⟨"p1", "u2", ProjectRole.Editor⟩]
      ∧ ownerCount (removeMember c1Members "p1" "u1") "p1" = 0
      ∧ removeMemberItemDisabled ProjectRole.Owner = true
      ∧ removeMemberItemDisabled ProjectRole.Editor = false := by
  decide

/-- The AI suggestion of the C3 counterexample: Gemini suggested priority
low and effort 4 for this task. -/
def c3Original : AISuggestion :=
  { suggestion_id := "s1", title := "Set up CI", description := "",
    priority := TaskPriority.low, effort_estimate := 4,
    source := "gemini", modified := false }

/-- The pre-save edit of the C3 counterexample: the user raises the priority
to high and the effort to 9 in the review step. -/
def c3Edit : SuggestionUpdate :=
  { priority := some TaskPriority.high, effort_estimate := some 9 }

/-- Claim C3 is false on the code: after the user edits the Gemini
suggestion before saving, the saved ai_priority_suggestion and
ai_effort_suggestion are the edited values high and 9, not the values low
and 4 the AI originally suggested, so the later modified comparison against
them cannot see this edit. -/
theorem c3_counterexample :
    c3Original.priority = TaskPriority.low
      ∧ c3Original.effort_estimate = 4
      ∧ (tasksToCreate (handleUpdate [c3Original] "s1" c3Edit)).map
          TaskCreatePayload.ai_priority_suggestion = [some TaskPriority.high]
      ∧ (tasksToCreate (handleUpdate [c3Original] "s1" c3Edit)).map
          TaskCreatePayload.ai_effort_suggestion = [some (9 : Int)]
      ∧ TaskPriority.high ≠ TaskPriority.low
      ∧ (9 : Int) ≠ 4 := by
  decide

/-- Claim C3 as amended: the saved provenance is ai exactly when the
suggestion's source is gemini (and user otherwise), and, for gemini-sourced
suggestions, ai_priority_suggestion and ai_effort_suggestion are the
priority and effort of the suggestion state at save time - after a pre-save
edit these are the edited values, not the AI's original ones. -/
theorem c3_provenance_and_save_time_suggestions (s : AISuggestion)
    (u : SuggestionUpdate) :
    ((savePayload s).created_by = CreatedBy.ai ↔ s.source = "gemini")
      ∧ ((savePayload s).ai_generated = true ↔ s.source = "gemini")
      ∧ (savePayload s).ai_priority_suggestion
          = (if s.source = "gemini" then some s.priority else none)
      ∧ (savePayload s).ai_effort_suggestion
          = (if s.source = "gemini" then some s.effort_estimate else none)
      ∧ (savePayload (applyUpdate u s)).ai_priority_suggestion
          = (if s.source = "gemini" then some (u.priority.getD s.priority) else none)
      ∧ (savePayload (applyUpdate u s)).ai_effort_suggestion
          = (if s.source = "gemini"
             then some (u.effort_estimate.getD s.effort_estimate) else none) := by
  by_cases h : s.source = "gemini" <;>
    simp [savePayload, applyUpdate, h]

/-- Claim C8: within one bulk-creation call the submitted sequence is the
payloads of the kept suggestions in their original order: tasksToCreate is
the payload map over the title-filtered list, that filtered list is an
order-preserving subsequence of the input, and the i-th submitted payload is
the payload of the i-th kept suggestion. -/
theorem c8_bulk_order_preserved (l : List AISuggestion) :
    tasksToCreate l = (l.filter keptSuggestion).map savePayload
      ∧ (l.filter keptSuggestion).Sublist l
      ∧ (∀ i : Nat, (tasksToCreate l)[i]?
            = Option.map savePayload (l.filter keptSuggestion)[i]?) := by
  refine ⟨rfl, List.filter_sublist l, fun i => ?_⟩
  simp [tasksToCreate]

/-- Claim C6 is false on the code: the input with title Design UI and effort
estimate 1001 meets every bound the claim names (trimmed title of 1 to 200
characters, nonnegative effort), yet the schema rejects it, because the
schema also caps the effort estimate at 1000. -/
theorem c6_counterexample :
    claimedTaskAccepts ⟨"Design UI", none, some 1001⟩ = true
      ∧ taskSchemaAccepts ⟨"Design UI", none, some 1001⟩ = false := by
  decide

/-- Claim C6 as amended: the schema accepts exactly when the trimmed title
has 1 to 200 characters, the trimmed description (when present) has at most
1000 characters, and the effort estimate (when present) lies between 0 and
1000; in particular a negative effort estimate is rejected and the submit
handler then stops before the create request, so no task is created. -/
theorem c6_validation_bounds (t : TaskInput) :
    (taskSchemaAccepts t = true ↔
        (1 ≤ (strTrim t.title).length ∧ (strTrim t.title).length ≤ 200
          ∧ (∀ d, t.description = some d → (strTrim d).length ≤ 1000)
          ∧ (∀ e, t.effort_estimate = some e → 0 ≤ e ∧ e ≤ 1000)))
      ∧ (∀ e, t.effort_estimate = some e → e < 0 →
          handleSubmitAction t = SubmitAction.rejectValidation) := by
  constructor
  · cases hd : t.description with
    | none =>
        cases he : t.effort_estimate with
        | none => simp [taskSchemaAccepts, hd, he]
        | some e => simp [taskSchemaAccepts, hd, he, and_assoc]
    | some d =>
        cases he : t.effort_estimate with
        | none => simp [taskSchemaAccepts, hd, he, and_assoc]
        | some e => simp [taskSchemaAccepts, hd, he, and_assoc]
  · intro e he hneg
    have hrej : taskSchemaAccepts t = false := by
      simp [taskSchemaAccepts, he]
      intro h1 h2 h3
      omega
    simp [handleSubmitAction, hrej]

/-- Witness for the C6 bounds theorem at concrete inputs: the input with
title Design UI and effort 8 passes the schema, and the input with effort -1
is stopped before any create request. -/
theorem c6_validation_bounds_witness :
    taskSchemaAccepts ⟨"Design UI", none, some 8⟩ = true
      ∧ handleSubmitAction ⟨"Design UI", none, some (-1)⟩
          = SubmitAction.rejectValidation := by
  constructor
  · apply (c6_validation_bounds ⟨"Design UI", none, some 8⟩).1.mpr
    refine ⟨by decide, by decide, ?_, ?_⟩
    · intro d hd
      cases hd
    · intro e he
      cases he
      decide
  · exact (c6_validation_bounds ⟨"Design UI", none, some (-1)⟩).2 (-1) rfl (by decide)

/-- Claim C4: accepting an invitation is permitted only on an exact,
case-sensitive match of the logged-in email with the invited email: the page
posts the accept request exactly when the two strings are equal, on a
mismatch it refuses (and the accept button is disabled) so no request is
sent, and the modelled backend rejects a mismatched accept with Forbidden,
creating no membership. -/
theorem c4_accept_requires_exact_email :
    (∀ (u : AuthUser) (inv : InvitationRec),
        (handleAccept (some u) inv = AcceptUiAction.postAccept inv.id ↔
            u.email = inv.invited_email)
          ∧ (u.email ≠ inv.invited_email →
              handleAccept (some u) inv = AcceptUiAction.refuseEmailMismatch
                ∧ acceptButtonDisabled false (some u) inv = true))
      ∧ (∀ (st : TeamState) (token : String) (u : AuthUser) (now : Int)
            (inv : InvitationRec),
          st.invitations.find? (fun i => decide (i.token = token)) = some inv →
          inv.accepted_at = none →
          ¬ inv.expires_at < now →
          u.email ≠ inv.invited_email →
          acceptInvitation st token u now = Except.error AcceptError.Forbidden) := by
  constructor
  · intro u inv
    by_cases h : u.email = inv.invited_email <;>
      simp [handleAccept, acceptButtonDisabled, h]
  · intro st token u now inv hfind hacc hexp hmail
    simp [acceptInvitation, hfind, hacc, hexp, hmail]

/-- The logged-in user of the C4 witness: the email differs from the invited
one only in letter case. -/
def c4User : AuthUser := ⟨"u-bob", "Bob@x.com"⟩

/-- The invitation of the C4 witness, addressed to the lower-case email. -/
def c4Invitation : InvitationRec :=
  ⟨"inv1", "p1", "bob@x.com", ProjectRole.Editor, "tok1", none, 7⟩

/-- The backend store of the C4 witness. -/
def c4State : TeamState := ⟨[c4Invitation], []⟩

/-- Witness for C4 at the concrete input: with the capitalised email the
page does not post the accept request, and the modelled backend answers
Forbidden, so comparison is case-sensitive. -/
theorem c4_accept_requires_exact_email_witness :
    handleAccept (some c4User) c4Invitation ≠ AcceptUiAction.postAccept c4Invitation.id
      ∧ acceptInvitation c4State "tok1" c4User 0 = Except.error AcceptError.Forbidden := by
  constructor
  · intro h
    exact absurd (((c4_accept_requires_exact_email.1 c4User c4Invitation).1).mp h)
      (by decide)
  · exact c4_accept_requires_exact_email.2 c4State "tok1" c4User 0 c4Invitation
      (by decide) rfl (by decide) (by decide)

/-- Claim C2: the modelled bulkCreateTasks is all-or-nothing: when any item
of the batch fails the per-item validation the whole call fails with
ValidationError and the store keeps only its previous tasks, and when the
call succeeds the result is the previous store followed by every item of the
batch in order - never a partial batch. -/
theorem c2_bulk_create_atomic :
    (∀ (store batch : List TaskInput),
        (∃ t ∈ batch, taskSchemaAccepts t = false) →
          bulkCreateTasks store batch = Except.error BulkError.ValidationError)
      ∧ (∀ (store batch result : List TaskInput),
          bulkCreateTasks store batch = Except.ok result → result = store ++ batch) := by
  constructor
  · rintro store batch ⟨t, ht, hbad⟩
    have hall : batch.all taskSchemaAccepts = false := by
      rw [List.all_eq_false]
      exact ⟨t, ht, by simp [hbad]⟩
    simp [bulkCreateTasks, hall]
  · intro store batch result h
    by_cases hall : batch.all taskSchemaAccepts
    · simpa [bulkCreateTasks, hall] using h.symm
    · simp [bulkCreateTasks, hall] at h

/-- A valid batch item for the C2 witness. -/
def c2Good : TaskInput := ⟨"Design UI", none, some 8⟩

/-- An invalid batch item for the C2 witness: the empty title fails the
validation. -/
def c2Bad : TaskInput := ⟨"", none, none⟩

/-- Witness for C2 at the concrete input: a batch holding one valid and one
empty-titled item is rejected whole, and a fully valid batch is persisted
exactly as supplied. -/
theorem c2_bulk_create_atomic_witness :
    bulkCreateTasks [] [c2Good, c2Bad] = Except.error BulkError.ValidationError
      ∧ [c2Good] = [] ++ [c2Good] := by
  constructor
  · exact c2_bulk_create_atomic.1 [] [c2Good, c2Bad] ⟨c2Bad, by decide, by decide⟩
  · exact c2_bulk_create_atomic.2 [] [c2Good] [c2Good] rfl

/-- The statistics fold with an arbitrary accumulator: each component grows
by the count of its branch condition. -/
theorem statsStep_foldl (ts : List TaskRec) (acc : TaskStats) :
    ts.foldl statsStep acc =
      ⟨acc.completed + ts.countP (fun t => decide (t.status = "done")),
       acc.in_progress + ts.countP (fun t =>
         !decide (t.status = "done") && decide (t.status = "in_progress")),
       acc.todo + ts.countP (fun t =>
         !decide (t.status = "done") && !decide (t.status = "in_progress"))⟩ := by
  induction ts generalizing acc with
  | nil => simp
  | cons t ts ih =>
      rw [List.foldl_cons, ih]
      by_cases h1 : t.status = "done"
      · simp [statsStep, h1, List.countP_cons, TaskStats.mk.injEq]
        omega
      · by_cases h2 : t.status = "in_progress"
        · simp [statsStep, h1, h2, List.countP_cons, TaskStats.mk.injEq]
          omega
        · simp [statsStep, h1, h2, List.countP_cons, TaskStats.mk.injEq]
          omega

/-- The statistics fold adds exactly one to some component per task, so the
component sum grows by the length of the list. -/
theorem statsStep_foldl_sum (ts : List TaskRec) (acc : TaskStats) :
    (ts.foldl statsStep acc).completed + (ts.foldl statsStep acc).in_progress
        + (ts.foldl statsStep acc).todo
      = acc.completed + acc.in_progress + acc.todo + ts.length := by
  induction ts generalizing acc with
  | nil => simp
  | cons t ts ih =>
      rw [List.foldl_cons, ih (statsStep acc t)]
      unfold statsStep
      by_cases h1 : t.status = "done"
      · simp [h1]
        omega
      · by_cases h2 : t.status = "in_progress"
        · simp [h1, h2]
          omega
        · simp [h1, h2]
          omega

/-- The branch condition of the in-progress count coincides with the plain
status test, and the fall-through condition with the negated pair, because
the two status strings differ. -/
theorem statsBranch_eq (t : TaskRec) :
    ((!decide (t.status = "done") && decide (t.status = "in_progress"))
        = decide (t.status = "in_progress"))
      ∧ ((!decide (t.status = "done") && !decide (t.status = "in_progress"))
          = decide (t.status ≠ "done" ∧ t.status ≠ "in_progress")) := by
  constructor
  · by_cases h : t.status = "done"
    · rw [h]
      decide
    · simp [h]
  · simp

/-- Claim C9: the dashboard statistics partition the task list: the three
counts sum to the number of tasks, the completed count is the number of
tasks with status done, the in-progress count the number with status
in_progress, and the todo count the number of all remaining tasks,
unrecognized statuses included. -/
theorem c9_dashboard_stats_partition (ts : List TaskRec) :
    (taskStats ts).completed + (taskStats ts).in_progress + (taskStats ts).todo
        = ts.length
      ∧ (taskStats ts).completed = ts.countP (fun t => decide (t.status = "done"))
      ∧ (taskStats ts).in_progress
          = ts.countP (fun t => decide (t.status = "in_progress"))
      ∧ (taskStats ts).todo
          = ts.countP (fun t => decide (t.status ≠ "done" ∧ t.status ≠ "in_progress")) := by
  have hip : ts.countP (fun t =>
        !decide (t.status = "done") && decide (t.status = "in_progress"))
      = ts.countP (fun t => decide (t.status = "in_progress")) :=
    List.countP_congr fun t _ => by rw [(statsBranch_eq t).1]
  have htd : ts.countP (fun t =>
        !decide (t.status = "done") && !decide (t.status = "in_progress"))
      = ts.countP (fun t => decide (t.status ≠ "done" ∧ t.status ≠ "in_progress")) :=
    List.countP_congr fun t _ => by rw [(statsBranch_eq t).2]
  refine ⟨by simpa using statsStep_foldl_sum ts ⟨0, 0, 0⟩, ?_, ?_, ?_⟩
  · unfold taskStats
    rw [statsStep_foldl]
    simp
  · unfold taskStats
    rw [statsStep_foldl, ← hip]
    simp
  · unfold taskStats
    rw [statsStep_foldl, ← htd]
    simp

/-- The effort fold with an arbitrary start value is the start value plus
the sum of the effort contributions. -/
theorem effort_foldl (ts : List TaskRec) (a : Int) :
    ts.foldl (fun sum t => sum + effortOf t) a = a + (ts.map effortOf).sum := by
  induction ts generalizing a with
  | nil => simp
  | cons t ts ih =>
      rw [List.foldl_cons, ih]
      simp
      ring

/-- Claim C10: for every task list whose present effort estimates are
nonnegative, progressPercent is an integer between 0 and 100, and a zero
total effort takes the guarded branch and gives 0. -/
theorem c10_progress_bounded (ts : List TaskRec)
    (h : ∀ t ∈ ts, ∀ e ∈ t.effort_estimate, (0 : Int) ≤ e) :
    0 ≤ progressPercent ts ∧ progressPercent ts ≤ 100
      ∧ (totalEffort ts = 0 → progressPercent ts = 0) := by
  have hnn : ∀ x ∈ ts.map effortOf, (0 : Int) ≤ x := by
    intro x hx
    obtain ⟨t, ht, rfl⟩ := List.mem_map.mp hx
    unfold effortOf
    cases he : t.effort_estimate with
    | none => simp
    | some e => simpa using h t ht e (by simp [he])
  have htot : totalEffort ts = (ts.map effortOf).sum := by
    simpa using effort_foldl ts 0
  have hcomp : completedEffort ts = ((doneTasks ts).map effortOf).sum := by
    simpa using effort_foldl (doneTasks ts) 0
  have hsub : ((doneTasks ts).map effortOf).Sublist (ts.map effortOf) :=
    (List.filter_sublist ts).map effortOf
  have hle : completedEffort ts ≤ totalEffort ts := by
    rw [hcomp, htot]
    exact List.Sublist.sum_le_sum hsub hnn
  have hc0 : 0 ≤ completedEffort ts := by
    rw [hcomp]
    exact List.sum_nonneg fun x hx => hnn x (hsub.subset hx)
  by_cases hpos : 0 < totalEffort ts
  · have htq : (0 : ℚ) < (totalEffort ts : ℚ) := by exact_mod_cast hpos
    have hcq : (0 : ℚ) ≤ (completedEffort ts : ℚ) := by exact_mod_cast hc0
    have hleq : (completedEffort ts : ℚ) ≤ (totalEffort ts : ℚ) := by exact_mod_cast hle
    have hq0 : (0 : ℚ) ≤ (completedEffort ts : ℚ) / (totalEffort ts : ℚ) * 100 := by
      positivity
    have hq1 : (completedEffort ts : ℚ) / (totalEffort ts : ℚ) * 100 ≤ 100 := by
      have hr : (completedEffort ts : ℚ) / (totalEffort ts : ℚ) ≤ 1 :=
        (div_le_one htq).mpr hleq
      linarith
    have hval : progressPercent ts
        = round ((completedEffort ts : ℚ) / (totalEffort ts : ℚ) * 100) := by
      unfold progressPercent
      rw [if_pos hpos]
    refine ⟨?_, ?_, ?_⟩
    · rw [hval, round_eq]
      exact Int.floor_nonneg.mpr (by linarith)
    · rw [hval, round_eq]
      exact Int.floor_le_iff.mpr (by push_cast; linarith)
    · intro h0
      rw [h0] at hpos
      exact absurd hpos (by norm_num)
  · have hval : progressPercent ts = 0 := by
      unfold progressPercent
      rw [if_neg hpos]
    exact ⟨by rw [hval], by rw [hval]; norm_num, fun _ => hval⟩

/-- The task list of the C10 witness: one done task of effort 1 and one todo
task of effort 3, so the progress is a quarter. -/
def c10Tasks : List TaskRec := [⟨"done", some 1⟩, ⟨"todo", some 3⟩]

/-- Witness for C10 at the concrete input: the bounds hold on the two-task
list with efforts 1 and 3. -/
theorem c10_progress_bounded_witness :
    0 ≤ progressPercent c10Tasks ∧ progressPercent c10Tasks ≤ 100
      ∧ (totalEffort c10Tasks = 0 → progressPercent c10Tasks = 0) :=
  c10_progress_bounded c10Tasks (by
    intro t ht e he
    fin_cases ht <;> simp_all <;> omega)

/-- Claim C5: the modelled acceptInvitation fails with NotFound when the
token is unknown, with Gone when the invitation was already accepted, and
with Expired when the current time is past expires_at - in each case no new
state is produced, so no Membership is created - and after a successful
acceptance a second acceptance with the same token fails with Gone, so the
token never creates a duplicate Membership. -/
theorem c5_accept_invitation_failures :
    (∀ (st : TeamState) (token : String) (u : AuthUser) (now : Int),
        st.invitations.find? (fun i => decide (i.token = token)) = none →
          acceptInvitation st token u now = Except.error AcceptError.NotFound)
      ∧ (∀ (st : TeamState) (token : String) (u : AuthUser) (now : Int)
            (inv : InvitationRec),
          st.invitations.find? (fun i => decide (i.token = token)) = some inv →
          inv.accepted_at.isSome = true →
          acceptInvitation st token u now = Except.error AcceptError.Gone)
      ∧ (∀ (st : TeamState) (token : String) (u : AuthUser) (now : Int)
            (inv : InvitationRec),
          st.invitations.find? (fun i => decide (i.token = token)) = some inv →
          inv.accepted_at = none →
          inv.expires_at < now →
          acceptInvitation st token u now = Except.error AcceptError.Expired)
      ∧ (∀ (st st2 : TeamState) (token : String) (u : AuthUser) (now : Int),
          acceptInvitation st token u now = Except.ok st2 →
          ∀ (u2 : AuthUser) (now2 : Int),
            acceptInvitation st2 token u2 now2 = Except.error AcceptError.Gone) := by
  refine ⟨?_, ?_, ?_, ?_⟩
  · intro st token u now hf
    simp [acceptInvitation, hf]
  · intro st token u now inv hf hacc
    simp [acceptInvitation, hf, hacc]
  · intro st token u now inv hf hacc hexp
    simp [acceptInvitation, hf, hacc, hexp]
  · intro st st2 token u now hok u2 now2
    unfold acceptInvitation at hok
    cases hf : st.invitations.find? (fun i => decide (i.token = token)) with
    | none =>
        rw [hf] at hok
        simp at hok
    | some inv =>
        rw [hf] at hok
        by_cases hacc : inv.accepted_at.isSome
        · simp [hacc] at hok
        · by_cases hexp : inv.expires_at < now
          · simp [hacc, hexp] at hok
          · by_cases hmail : u.email = inv.invited_email
            · have htok : inv.token = token := by
                simpa using List.find?_some hf
              simp only [hacc, hexp, hmail] at hok
              rw [if_neg (by simp [hacc]), if_neg (by simp [hexp]),
                if_neg (by simp [hmail])] at hok
              have hst2 := (Except.ok.inj hok).symm
              subst hst2
              simp only [acceptInvitation]
              rw [List.find?_map]
              have hpf : ((fun (i : InvitationRec) => decide (i.token = token))
                    ∘ fun (i : InvitationRec) =>
                    if i.token = token then { i with accepted_at := some now } else i)
                  = fun (i : InvitationRec) => decide (i.token = token) := by
                funext i
                by_cases h : i.token = token <;> simp [h]
              rw [hpf, hf]
              simp [htok]
            · simp [hacc, hexp, hmail] at hok

/-- The accepting user of the C5 witness. -/
def c5Bob : AuthUser := ⟨"u-bob", "bob@x.com"⟩

/-- The pending invitation of the C5 witness: Editor on project launch,
expiring at day 7 (the seven-day TTL of the example scenario). -/
def c5Pending : InvitationRec :=
  ⟨"inv1", "launch", "bob@x.com", ProjectRole.Editor, "tok", none, 7⟩

/-- The invitation of the C5 witness after acceptance at day 3. -/
def c5Accepted : InvitationRec := { c5Pending with accepted_at := some 3 }

/-- The C5 witness store before acceptance: one pending invitation, no
memberships. -/
def c5StatePending : TeamState := ⟨[c5Pending], []⟩

/-- The C5 witness store after acceptance at day 3. -/
def c5StateAccepted : TeamState :=
  ⟨[c5Accepted], [⟨"launch", "u-bob", ProjectRole.Editor⟩]⟩

/-- Witness for C5 at concrete inputs: an unknown token is NotFound, an
already-accepted invitation is Gone, accepting the seven-day invitation on
day 8 is Expired with no Membership created, and after a successful
acceptance on day 3 the same token is Gone on day 5. -/
theorem c5_accept_invitation_failures_witness :
    acceptInvitation ⟨[], []⟩ "tok" c5Bob 0 = Except.error AcceptError.NotFound
      ∧ acceptInvitation c5StatePending "tok" c5Bob 8 = Except.error AcceptError.Expired
      ∧ acceptInvitation c5StatePending "tok" c5Bob 3 = Except.ok c5StateAccepted
      ∧ acceptInvitation c5StateAccepted "tok" c5Bob 5 = Except.error AcceptError.Gone := by
  refine ⟨?_, ?_, rfl, ?_⟩
  · exact c5_accept_invitation_failures.1 ⟨[], []⟩ "tok" c5Bob 0 rfl
  · exact c5_accept_invitation_failures.2.2.1 c5StatePending "tok" c5Bob 8 c5Pending
      rfl rfl (by decide)
  · exact c5_accept_invitation_failures.2.2.2 c5StatePending c5StateAccepted "tok"
      c5Bob 3 rfl c5Bob 5
